import Mathlib

set_option maxRecDepth 100000

/-!
Shallow embedding of the maple-pod/resources build pipeline.

`src/build-resources.ts` fetches a BGM catalog, downloads mark images and
audio tracks, probes durations, compresses marks, and writes a manifest
(`data.json`) plus an optional error log. The publish script (unnamed
source part) batches changed files into commits and pushes them.

External effects (network fetches, ffprobe, file reads/writes) are modelled
by oracle functions; JavaScript numbers are modelled by `Rat`; the mutable
`Set`s and the `errorLogs` array become explicit state threaded through the
stages. Event lists record the order of fetches and of the final writes.
-/

namespace MapleResources

/-- `metadata` field of a catalog entry (`MapleBgmItem.metadata`). -/
structure Metadata where
  albumArtist : String
  artist : String
  title : String
  year : String
deriving DecidableEq, Repr

/-- `source` field of a catalog entry. (`structure` is a Lean keyword, so the
field is renamed `structure_`.) -/
structure SourceInfo where
  client : String
  date : String
  structure_ : String
  version : String
deriving DecidableEq, Repr

/-- A catalog entry, as fetched from the remote `bgm.min.json`
(interface `MapleBgmItem` in `build-resources.ts`). -/
structure MapleBgmItem where
  description : String
  filename : String
  mark : String
  metadata : Metadata
  source : SourceInfo
  youtube : String
deriving DecidableEq, Repr

/-- A work item (interface `OutputDataItem`): the projection of a catalog
entry, later mutated in place by the duration enricher. -/
structure OutputDataItem where
  title : String
  cover : String
  duration : Rat
  src : String
  data : MapleBgmItem
deriving DecidableEq, Repr

/-- `getMarkFilename`: the mark image's filename. -/
def getMarkFilename (item : OutputDataItem) : String :=
  item.data.mark ++ ".png"

/-- `getBgmFilename`: the audio track's filename. -/
def getBgmFilename (item : OutputDataItem) : String :=
  item.data.filename ++ ".mp3"

/-- The projection applied in `main` to each kept catalog entry. -/
def toOutputDataItem (item : MapleBgmItem) : OutputDataItem :=
  { title := item.metadata.title
    cover := "/mark/" ++ item.mark ++ ".png"
    duration := 0
    src := "/bgm/" ++ item.filename ++ ".mp3"
    data := item }

/-- Catalog projection in `main`: `.filter(item => item.youtube)` keeps the
entries whose `youtube` field is a non-empty string (JavaScript truthiness),
then maps each to an `OutputDataItem`. -/
def projectCatalog (catalog : List MapleBgmItem) : List OutputDataItem :=
  (catalog.filter (fun item => item.youtube ≠ "")).map toOutputDataItem

/-- The local asset index: the two `Set`s `downloadedMarks` / `downloadedBgms`
populated by `prepareDirs` from the files already on disk. Membership models
both set membership and presence of the file on disk (the two coincide:
files are written exactly when the filename is added). -/
structure AssetIndex where
  downloadedMarks : List String
  downloadedBgms : List String
deriving DecidableEq, Repr

/-- `isMarkDownloaded`. -/
def isMarkDownloaded (st : AssetIndex) (item : OutputDataItem) : Bool :=
  st.downloadedMarks.contains (getMarkFilename item)

/-- `isBgmDownloaded`. -/
def isBgmDownloaded (st : AssetIndex) (item : OutputDataItem) : Bool :=
  st.downloadedBgms.contains (getBgmFilename item)

/-- Structural worker for `chunkArray`: `fuel` bounds the number of loop
iterations (any `fuel ≥ xs.length` gives the loop's result, see
`chunkArrayGo_congr`). Structural recursion keeps the definition
kernel-reducible so concrete runs evaluate by `decide`/`rfl`. -/
def chunkArrayGo {α : Type} (fuel : Nat) (xs : List α) (size : Nat) :
    List (List α) :=
  match fuel with
  | 0 => []
  | fuel + 1 =>
    if xs.isEmpty then []
    else if size = 0 then []
    else xs.take size :: chunkArrayGo fuel (xs.drop size) size

/-- `chunkArray` (identical in both source files): slices of length `size`
taken left to right. For `size = 0` the JavaScript loop never terminates;
the embedding returns `[]` in that (never exercised) case. -/
def chunkArray {α : Type} (xs : List α) (size : Nat) : List (List α) :=
  chunkArrayGo xs.length xs size

/-- The `type` tag of an entry of `errorLogs`: `'bgm' | 'mark'`. -/
inductive ErrorType
  | bgm
  | mark
deriving DecidableEq, Repr

/-- An entry of the `errorLogs` array. -/
structure ErrorLog where
  type : ErrorType
  message : String
deriving DecidableEq, Repr

/-- A network fetch issued by the download stage, identified by the target
filename: `markFetch f` is the HTTP GET of the mark image saved as `f`
(`downloadMark`), `trackFetch f` is the ytdl/ffmpeg pipeline producing the
audio file `f` (`downloadBgm`). -/
inductive FetchEvent
  | markFetch (filename : String)
  | trackFetch (filename : String)
deriving DecidableEq, Repr

/-- Outcomes of the two fetches: `none` models a fulfilled promise, `some r`
a rejection with reason `r`. -/
structure DownloadOracle where
  markResult : OutputDataItem → Option String
  bgmResult : OutputDataItem → Option String

/-- State threaded through the download loop: the asset index (the two
mutable `Set`s), the `errorLogs` array, and the trace of fetches issued. -/
structure DownloadState where
  index : AssetIndex
  errorLogs : List ErrorLog
  events : List FetchEvent
deriving Repr

/-- Message pushed when `downloadMark` rejects (line 154). -/
def markFailMessage (item : OutputDataItem) (reason : String) : String :=
  "Failed to download mark for " ++ item.data.mark ++ ": " ++ reason

/-- Message pushed when `downloadBgm` rejects (line 157). -/
def bgmFailMessage (item : OutputDataItem) (reason : String) : String :=
  "Failed to download BGM for " ++ item.data.mark ++ ": " ++ reason

/-- One iteration of the download loop (lines 149-158). Both `downloadMark`
and `downloadBgm` are invoked unconditionally via
`Promise.allSettled([downloadMark(item), downloadBgm(item)])`; each adds its
filename to the corresponding set exactly when it fulfills, and each
rejection appends one typed entry to `errorLogs`. -/
def downloadItem (oracle : DownloadOracle) (st : DownloadState)
    (item : OutputDataItem) : DownloadState :=
  let events := st.events ++
    [FetchEvent.markFetch (getMarkFilename item),
     FetchEvent.trackFetch (getBgmFilename item)]
  let marks :=
    match oracle.markResult item with
    | none => st.index.downloadedMarks ++ [getMarkFilename item]
    | some _ => st.index.downloadedMarks
  let bgms :=
    match oracle.bgmResult item with
    | none => st.index.downloadedBgms ++ [getBgmFilename item]
    | some _ => st.index.downloadedBgms
  let errs1 :=
    match oracle.markResult item with
    | some reason => st.errorLogs ++ [⟨ErrorType.mark, markFailMessage item reason⟩]
    | none => st.errorLogs
  let errs2 :=
    match oracle.bgmResult item with
    | some reason => errs1 ++ [⟨ErrorType.bgm, bgmFailMessage item reason⟩]
    | none => errs1
  ⟨⟨marks, bgms⟩, errs2, events⟩

/-- `toDownloadList` (line 144): items missing at least one asset, judged
against the index as it stands when the stage begins. -/
def toDownloadList (idx : AssetIndex) (items : List OutputDataItem) :
    List OutputDataItem :=
  items.filter (fun i => !isMarkDownloaded idx i || !isBgmDownloaded idx i)

/-- The download stage (lines 143-160): the to-download list is computed
once up front, then each listed item is processed in order. -/
def downloadStage (oracle : DownloadOracle) (items : List OutputDataItem)
    (st : DownloadState) : DownloadState :=
  (toDownloadList st.index items).foldl (downloadItem oracle) st

/-- Outcome of `ffmpeg.ffprobe` on a track: `err` models the error callback
(`getBgmDuration` rejects), `ok d` a successful probe whose
`metadata.format.duration` is `d` (`none` when the field is undefined). -/
inductive ProbeResult
  | err (message : String)
  | ok (duration : Option Rat)

/-- `getBgmDuration`: rejects on a probe error, otherwise resolves
`metadata.format.duration || 0` — JavaScript `||` yields 0 when the field
is undefined or 0. -/
def getBgmDuration : ProbeResult → Except String Rat
  | ProbeResult.err msg => Except.error msg
  | ProbeResult.ok none => Except.ok 0
  | ProbeResult.ok (some d) => Except.ok (if d = 0 then 0 else d)

/-- Per-item body of the duration stage (lines 169-177): on success the
item's `duration` is set to the probed value, on failure to 0. -/
def enrichDuration (probe : OutputDataItem → ProbeResult)
    (item : OutputDataItem) : OutputDataItem :=
  match getBgmDuration (probe item) with
  | Except.ok d => { item with duration := d }
  | Except.error _ => { item with duration := 0 }

/-- Error entries pushed by the per-item body: one `bgm`-typed entry exactly
when `getBgmDuration` rejects (line 174). -/
def enrichError (probe : OutputDataItem → ProbeResult)
    (item : OutputDataItem) : List ErrorLog :=
  match getBgmDuration (probe item) with
  | Except.ok _ => []
  | Except.error msg =>
      [⟨ErrorType.bgm,
        "Failed to get duration for " ++ item.data.filename ++ ": " ++ msg⟩]

/-- The duration stage (lines 163-179): items are processed in batches of
50 (`chunkArray(outputData, 50)`), each batch joined before the next
starts. Returns the updated items and the error entries appended. -/
def enrichStage (probe : OutputDataItem → ProbeResult)
    (items : List OutputDataItem) : List OutputDataItem × List ErrorLog :=
  (chunkArray items 50).foldl
    (fun acc batch =>
      (acc.1 ++ batch.map (enrichDuration probe),
       acc.2 ++ batch.flatMap (enrichError probe)))
    ([], [])

/-- JavaScript object assignment `marks[key] = value`: overwrite in place if
the key exists, otherwise append. -/
def recordSet {β : Type} (m : List (String × β)) (k : String) (v : β) :
    List (String × β) :=
  if m.any (fun p => p.1 = k) then
    m.map (fun p => if p.1 = k then (k, v) else p)
  else
    m ++ [(k, v)]

/-- The mark-encoding stage (lines 182-197): reads each item's mark file and
stores `deflateSync` of its bytes keyed by `item.data.mark`. `readFileSync`
throws for a missing file; the resulting rejection propagates through
`Promise.all` and the awaited IIFE, so a single unreadable mark makes the
whole stage — and the rest of `main` — fail. `readable f` holds exactly when
file `f` exists (its filename is in the post-download mark set); `fileBytes`
and `deflate` are oracles for the file contents and the compression. The
compressed value is kept as a byte list (the source packs it into a string
via `String.fromCharCode`, a byte-to-char bijection). -/
def encodeStage (readable : String → Bool) (fileBytes : String → List Nat)
    (deflate : List Nat → List Nat) (items : List OutputDataItem) :
    Except String (List (String × List Nat)) :=
  if items.all (fun i => readable (getMarkFilename i)) then
    Except.ok (items.foldl
      (fun m i => recordSet m i.data.mark (deflate (fileBytes (getMarkFilename i))))
      [])
  else
    Except.error "ENOENT: no such file or directory"

/-- All external outcomes a run of `main` depends on. `errorLogWriteOk`
models whether the `writeFile` of the error log fulfills. -/
structure RunOracle where
  dl : DownloadOracle
  probe : OutputDataItem → ProbeResult
  fileBytes : String → List Nat
  deflate : List Nat → List Nat
  errorLogWriteOk : Bool

/-- A write performed by the tail of `main` (lines 199-213), in order.
`errorLogWrite ok` records the attempt to write the error log and whether
it succeeded. -/
inductive RunEvent
  | errorLogWrite (ok : Bool)
  | manifestWrite
deriving DecidableEq, Repr

/-- The manifest written to `data.json` (lines 205-213). -/
structure Manifest where
  bgms : List OutputDataItem
  marks : List (String × List Nat)
  builtAt : Nat
deriving DecidableEq, Repr

/-- Observable outcome of one run of `main`: the fetches issued, the final
`errorLogs` array, the ordered trace of final writes, and the manifest if
`data.json` was written. -/
structure RunResult where
  fetches : List FetchEvent
  errorLogs : List ErrorLog
  events : List RunEvent
  manifest : Option Manifest
deriving DecidableEq, Repr

/-- Stage 1 of `main` applied to the projected catalog, starting from the
index `prepareDirs` built and empty `errorLogs`. -/
def runDownload (oracle : RunOracle) (catalog : List MapleBgmItem)
    (initial : AssetIndex) : DownloadState :=
  downloadStage oracle.dl (projectCatalog catalog) ⟨initial, [], []⟩

/-- The final writes of `main` (lines 199-213). If the encoding stage threw,
`main` rejects before either write. Otherwise, when `errorLogs` is non-empty
the error log is written first (lines 199-203); a rejection of that write
aborts `main`, so `data.json` (lines 205-213) is written only after a
successful (or skipped) error-log write. -/
def runTail (errorLogs : List ErrorLog) (writeOk : Bool)
    (encoded : Except String (List (String × List Nat)))
    (bgms : List OutputDataItem) (builtAt : Nat)
    (fetches : List FetchEvent) : RunResult :=
  match encoded with
  | Except.error _ => ⟨fetches, errorLogs, [], none⟩
  | Except.ok marks =>
    if errorLogs.isEmpty then
      ⟨fetches, errorLogs, [RunEvent.manifestWrite],
       some ⟨bgms, marks, builtAt⟩⟩
    else if writeOk then
      ⟨fetches, errorLogs,
       [RunEvent.errorLogWrite true, RunEvent.manifestWrite],
       some ⟨bgms, marks, builtAt⟩⟩
    else
      ⟨fetches, errorLogs, [RunEvent.errorLogWrite false], none⟩

/-- `main` (lines 128-216), from catalog projection to the final writes.
The mark file read in stage 3 succeeds exactly when the filename is in the
post-download mark set (initially present or downloaded this run).
`builtAt` stands for `Date.now()`. -/
def runMain (oracle : RunOracle) (catalog : List MapleBgmItem)
    (initial : AssetIndex) (builtAt : Nat) : RunResult :=
  let st1 := runDownload oracle catalog initial
  let enr := enrichStage oracle.probe (projectCatalog catalog)
  runTail (st1.errorLogs ++ enr.2) oracle.errorLogWriteOk
    (encodeStage (fun f => st1.index.downloadedMarks.contains f)
      oracle.fileBytes oracle.deflate enr.1)
    enr.1 builtAt st1.events

/-- JavaScript `String.prototype.endsWith(suffix)`: a suffix test on the
characters. (Lean's own `String.endsWith` is extensionally the same test
but is built on `String.substrEq`, a well-founded recursion the kernel
cannot evaluate; the character-list suffix test keeps concrete batch
computations evaluable.) -/
def strEndsWith (s suffix : String) : Bool :=
  suffix.data.isSuffixOf s.data

/-- The publish script's batch formation (`run` in the deploy script): the
status files are filtered by extension; one part for all `.json` and `.png`
files when any exist, then the `.mp3` files in chunks of 100, one part per
chunk; `part` counts up from 1; batches are committed and pushed in list
order. Each batch is the pair (part number, staged paths). -/
def publishBatches (files : List String) : List (Nat × List String) :=
  let jsonFiles := files.filter (fun f => strEndsWith f ".json")
  let pngFiles := files.filter (fun f => strEndsWith f ".png")
  let mp3Files := files.filter (fun f => strEndsWith f ".mp3")
  if jsonFiles.length = 0 ∧ pngFiles.length = 0 ∧ mp3Files.length = 0 then
    []
  else
    let nonAudio :=
      if 0 < jsonFiles.length ∨ 0 < pngFiles.length then
        [(1, jsonFiles ++ pngFiles)]
      else []
    let part := if 0 < jsonFiles.length ∨ 0 < pngFiles.length then 2 else 1
    let audio :=
      if 0 < mp3Files.length then
        ((chunkArray mp3Files 100).foldl
          (fun acc b => (acc.1 ++ [(acc.2, b)], acc.2 + 1)) ([], part)).1
      else []
    nonAudio ++ audio

/-! Concrete fixtures used by witnesses and counterexamples. -/

/-- A sample catalog entry. -/
def sampleEntry (fname mk yt : String) : MapleBgmItem :=
  ⟨"a song", fname, mk, ⟨"aa", "ar", "title of " ++ fname, "2020"⟩,
   ⟨"GMS", "2020-01-01", "s", "1"⟩, yt⟩

/-- Entry 1: track `song1`, mark `m1`. -/
def entry1 : MapleBgmItem := sampleEntry "song1" "m1" "yt1"

/-- Entry 2: track `song2`, mark `m2`. -/
def entry2 : MapleBgmItem := sampleEntry "song2" "m2" "yt2"

/-- Entry without a source reference (`youtube` empty): dropped by the
projection. -/
def entryNoSource : MapleBgmItem := sampleEntry "song3" "m3" ""

/-- The work item projected from `entry1`. -/
def item1 : OutputDataItem := toOutputDataItem entry1

/-- Fetch oracle under which every fetch fulfills. -/
def dlAllOk : DownloadOracle := ⟨fun _ => none, fun _ => none⟩

/-- Fetch oracle under which every mark fetch rejects and every track fetch
fulfills. -/
def dlMarkFails : DownloadOracle := ⟨fun _ => some "e403", fun _ => none⟩

/-- Run oracle: every fetch and probe succeeds, error-log write succeeds. -/
def oracleAllOk : RunOracle :=
  ⟨dlAllOk, fun _ => ProbeResult.ok (some 60), fun _ => [1, 2], fun b => b, true⟩

/-- Run oracle: track fetches reject, everything else succeeds. -/
def oracleBgmRejects : RunOracle :=
  ⟨⟨fun _ => none, fun _ => some "rate limited"⟩,
   fun _ => ProbeResult.ok (some 60), fun _ => [1, 2], fun b => b, true⟩

/-- Like `oracleBgmRejects`, but the error-log write also rejects. -/
def oracleBgmRejectsLogFails : RunOracle :=
  ⟨⟨fun _ => none, fun _ => some "rate limited"⟩,
   fun _ => ProbeResult.ok (some 60), fun _ => [1, 2], fun b => b, false⟩

/-- Run oracle: mark fetches reject, everything else succeeds. -/
def oracleMarkRejects : RunOracle :=
  ⟨⟨fun _ => some "e404", fun _ => none⟩,
   fun _ => ProbeResult.ok (some 60), fun _ => [1, 2], fun b => b, true⟩

/-- A changed-file set of 250 audio files and 10 non-audio files. -/
def filesC4 : List String :=
  List.replicate 250 "track.mp3" ++ List.replicate 10 "other.json"

/-! Helper lemmas. -/

@[simp] theorem chunkArrayGo_nil {α : Type} (fuel size : Nat) :
    chunkArrayGo fuel ([] : List α) size = [] := by
  cases fuel <;> simp [chunkArrayGo]

theorem chunkArrayGo_congr {α : Type} (fuel1 : Nat) :
    ∀ (fuel2 : Nat) (xs : List α) (size : Nat),
      xs.length ≤ fuel1 → xs.length ≤ fuel2 →
      chunkArrayGo fuel1 xs size = chunkArrayGo fuel2 xs size := by
  induction fuel1 with
  | zero =>
    intro fuel2 xs size h1 _
    have hx : xs = [] := List.eq_nil_of_length_eq_zero (Nat.le_zero.mp h1)
    subst hx
    simp
  | succ f1 ih =>
    intro fuel2 xs size h1 h2
    cases xs with
    | nil => simp
    | cons a tl =>
      cases fuel2 with
      | zero => simp at h2
      | succ f2 =>
        by_cases hs : size = 0
        · simp [chunkArrayGo, hs]
        · simp only [chunkArrayGo, List.isEmpty_cons, if_neg, hs, if_false,
            Bool.false_eq_true]
          have hlen : ((a :: tl).drop size).length ≤ f1 := by
            simp only [List.length_drop, List.length_cons]
            simp only [List.length_cons] at h1
            omega
          have hlen2 : ((a :: tl).drop size).length ≤ f2 := by
            simp only [List.length_drop, List.length_cons]
            simp only [List.length_cons] at h2
            omega
          rw [ih f2 ((a :: tl).drop size) size hlen hlen2]

@[simp] theorem chunkArrayGo_zero_size {α : Type} (fuel : Nat) (xs : List α) :
    chunkArrayGo fuel xs 0 = [] := by
  cases fuel <;> simp [chunkArrayGo]

@[simp] theorem chunkArray_nil {α : Type} (size : Nat) :
    chunkArray ([] : List α) size = [] := by
  simp [chunkArray]

theorem chunkArray_cons {α : Type} (xs : List α) (size : Nat)
    (hx : xs ≠ []) (hs : size ≠ 0) :
    chunkArray xs size = xs.take size :: chunkArray (xs.drop size) size := by
  cases xs with
  | nil => exact absurd rfl hx
  | cons a tl =>
    show chunkArrayGo (a :: tl).length (a :: tl) size = _
    simp only [List.length_cons, chunkArrayGo, List.isEmpty_cons, if_neg, hs,
      if_false, Bool.false_eq_true]
    rw [chunkArray]
    rw [chunkArrayGo_congr tl.length ((a :: tl).drop size).length
      ((a :: tl).drop size) size (by simp only [List.length_drop]; simp; omega)
      (le_refl _)]

theorem chunkArray_flatten {α : Type} (xs : List α) (size : Nat) (hs : 0 < size) :
    (chunkArray xs size).flatten = xs := by
  by_cases hx : xs = []
  · subst hx
    simp
  · rw [chunkArray_cons xs size hx (Nat.pos_iff_ne_zero.mp hs)]
    rw [List.flatten_cons]
    rw [chunkArray_flatten (xs.drop size) size hs]
    exact List.take_append_drop _ _
termination_by xs.length
decreasing_by
  have hx0 : 0 < xs.length := List.length_pos.mpr hx
  simp only [List.length_drop]
  omega

theorem chunkArray_mem_ne_nil {α : Type} (xs : List α) (size : Nat)
    (c : List α) (hc : c ∈ chunkArray xs size) : c ≠ [] := by
  by_cases hx : xs = []
  · subst hx
    simp at hc
  · by_cases hs : size = 0
    · rw [hs] at hc
      rw [chunkArray] at hc
      simp at hc
    · rw [chunkArray_cons xs size hx hs] at hc
      rcases List.mem_cons.mp hc with h | h
      · subst h
        simp [List.take_eq_nil_iff, hs, hx]
      · exact chunkArray_mem_ne_nil (xs.drop size) size c h
termination_by xs.length
decreasing_by
  have hx0 : 0 < xs.length := List.length_pos.mpr hx
  simp only [List.length_drop]
  omega

theorem chunkArray_dropLast_length {α : Type} (xs : List α) (size : Nat)
    (hs : 0 < size) (c : List α) (hc : c ∈ (chunkArray xs size).dropLast) :
    c.length = size := by
  by_cases hx : xs = []
  · subst hx
    simp at hc
  · rw [chunkArray_cons xs size hx (Nat.pos_iff_ne_zero.mp hs)] at hc
    cases hrest : chunkArray (xs.drop size) size with
    | nil =>
      rw [hrest] at hc
      simp at hc
    | cons b bs =>
      rw [hrest, List.dropLast_cons_of_ne_nil (by simp)] at hc
      rcases List.mem_cons.mp hc with h | h
      · subst h
        have hdrop : xs.drop size ≠ [] := by
          intro hmt
          rw [hmt] at hrest
          simp at hrest
        rw [List.length_take]
        have hlt : size < xs.length := by
          by_contra hle
          push_neg at hle
          exact hdrop (List.drop_eq_nil_of_le hle)
        omega
      · rw [← hrest] at h
        exact chunkArray_dropLast_length (xs.drop size) size hs c h
termination_by xs.length
decreasing_by
  have hx0 : 0 < xs.length := List.length_pos.mpr hx
  simp only [List.length_drop]
  omega

theorem downloadItem_events (oracle : DownloadOracle) (st : DownloadState)
    (item : OutputDataItem) :
    (downloadItem oracle st item).events = st.events ++
      [FetchEvent.markFetch (getMarkFilename item),
       FetchEvent.trackFetch (getBgmFilename item)] := by
  simp only [downloadItem]

theorem foldl_downloadItem_events (oracle : DownloadOracle)
    (L : List OutputDataItem) (st : DownloadState) :
    (L.foldl (downloadItem oracle) st).events = st.events ++
      L.flatMap (fun i =>
        [FetchEvent.markFetch (getMarkFilename i),
         FetchEvent.trackFetch (getBgmFilename i)]) := by
  induction L generalizing st with
  | nil => simp
  | cons a tl ih =>
    simp only [List.foldl_cons, List.flatMap_cons]
    rw [ih, downloadItem_events]
    simp

theorem downloadStage_events (oracle : DownloadOracle)
    (items : List OutputDataItem) (st : DownloadState) :
    (downloadStage oracle items st).events = st.events ++
      (toDownloadList st.index items).flatMap (fun i =>
        [FetchEvent.markFetch (getMarkFilename i),
         FetchEvent.trackFetch (getBgmFilename i)]) :=
  foldl_downloadItem_events oracle (toDownloadList st.index items) st

theorem enrichStage_fst (probe : OutputDataItem → ProbeResult)
    (items : List OutputDataItem) :
    (enrichStage probe items).1 = items.map (enrichDuration probe) := by
  have key : ∀ (bs : List (List OutputDataItem))
      (acc : List OutputDataItem × List ErrorLog),
      (bs.foldl (fun acc batch =>
        (acc.1 ++ batch.map (enrichDuration probe),
         acc.2 ++ batch.flatMap (enrichError probe))) acc).1 =
      acc.1 ++ bs.flatten.map (enrichDuration probe) := by
    intro bs
    induction bs with
    | nil => intro acc; simp
    | cons b tl ih =>
      intro acc
      simp only [List.foldl_cons, List.flatten_cons]
      rw [ih]
      simp
  rw [enrichStage, key, chunkArray_flatten items 50 (by omega)]
  simp

theorem enrichStage_snd (probe : OutputDataItem → ProbeResult)
    (items : List OutputDataItem) :
    (enrichStage probe items).2 = items.flatMap (enrichError probe) := by
  have key : ∀ (bs : List (List OutputDataItem))
      (acc : List OutputDataItem × List ErrorLog),
      (bs.foldl (fun acc batch =>
        (acc.1 ++ batch.map (enrichDuration probe),
         acc.2 ++ batch.flatMap (enrichError probe))) acc).2 =
      acc.2 ++ bs.flatten.flatMap (enrichError probe) := by
    intro bs
    induction bs with
    | nil => intro acc; simp
    | cons b tl ih =>
      intro acc
      simp only [List.foldl_cons, List.flatten_cons]
      rw [ih]
      simp
  rw [enrichStage, key, chunkArray_flatten items 50 (by omega)]
  simp

theorem enrichDuration_data (probe : OutputDataItem → ProbeResult)
    (item : OutputDataItem) :
    (enrichDuration probe item).data = item.data := by
  rw [enrichDuration]
  cases getBgmDuration (probe item) <;> rfl

theorem runTail_errorLogs (el : List ErrorLog) (wk : Bool)
    (enc : Except String (List (String × List Nat)))
    (bgms : List OutputDataItem) (t : Nat) (f : List FetchEvent) :
    (runTail el wk enc bgms t f).errorLogs = el := by
  cases enc with
  | error e => rfl
  | ok marks =>
    rw [runTail]
    by_cases h : el.isEmpty <;> by_cases h2 : wk <;> simp [h, h2]

theorem runTail_manifest_bgms (el : List ErrorLog) (wk : Bool)
    (enc : Except String (List (String × List Nat)))
    (bgms : List OutputDataItem) (t : Nat) (f : List FetchEvent)
    (m : Manifest) (hm : (runTail el wk enc bgms t f).manifest = some m) :
    m.bgms = bgms := by
  cases enc with
  | error e => simp [runTail] at hm
  | ok marks =>
    rw [runTail] at hm
    by_cases h : el.isEmpty <;> by_cases h2 : wk <;>
      simp [h, h2] at hm <;> simp [← hm]

theorem runMain_eq (oracle : RunOracle) (catalog : List MapleBgmItem)
    (initial : AssetIndex) (builtAt : Nat) :
    runMain oracle catalog initial builtAt =
      runTail ((runDownload oracle catalog initial).errorLogs ++
          (enrichStage oracle.probe (projectCatalog catalog)).2)
        oracle.errorLogWriteOk
        (encodeStage
          (fun f => (runDownload oracle catalog initial).index.downloadedMarks.contains f)
          oracle.fileBytes oracle.deflate
          (enrichStage oracle.probe (projectCatalog catalog)).1)
        (enrichStage oracle.probe (projectCatalog catalog)).1 builtAt
        (runDownload oracle catalog initial).events := rfl

theorem runTail_events_shape (el : List ErrorLog) (wk : Bool)
    (enc : Except String (List (String × List Nat)))
    (bgms : List OutputDataItem) (t : Nat) (f : List FetchEvent) :
    ((runTail el wk enc bgms t f).events = [] ∨
     (runTail el wk enc bgms t f).events = [RunEvent.manifestWrite] ∨
     (runTail el wk enc bgms t f).events =
       [RunEvent.errorLogWrite true, RunEvent.manifestWrite] ∨
     (runTail el wk enc bgms t f).events = [RunEvent.errorLogWrite false]) ∧
    ((runTail el wk enc bgms t f).events = [RunEvent.errorLogWrite false] →
      (runTail el wk enc bgms t f).manifest = none) := by
  cases enc with
  | error e => exact ⟨Or.inl rfl, by intro h; rfl⟩
  | ok marks =>
    rw [runTail]
    by_cases h : el.isEmpty
    · simp [h]
    · by_cases h2 : wk
      · simp [h, h2]
      · simp [h, h2]

/-! Claim theorems. -/

/-- C1, counterexample: on a run where the track fetch for `entry1` rejects
(so `errorLogs` is non-empty) and everything else succeeds, the final write
trace is the error-log write FIRST, then the manifest write — not the order
the claim states; and on the same run with a rejecting error-log write, the
error list is non-empty yet `data.json` is never written. -/
theorem C1_counterexample :
    (runMain oracleBgmRejects [entry1] ⟨["m1.png"], []⟩ 0).events =
      [RunEvent.errorLogWrite true, RunEvent.manifestWrite] ∧
    (runMain oracleBgmRejectsLogFails [entry1] ⟨["m1.png"], []⟩ 0).errorLogs ≠ [] ∧
    (runMain oracleBgmRejectsLogFails [entry1] ⟨["m1.png"], []⟩ 0).manifest = none :=
  ⟨by decide, by decide, by decide⟩

/-- C1 (amended): the error-log flush runs strictly BEFORE the manifest
write. Every run produces one of four final-write traces — no writes (fatal
encode stage), manifest only (no errors), error log then manifest, or a
failed error-log write alone — and in the last case the manifest is not
produced: a failure while writing the error log prevents the manifest. -/
theorem C1_error_log_before_manifest (oracle : RunOracle)
    (catalog : List MapleBgmItem) (initial : AssetIndex) (t : Nat) :
    ((runMain oracle catalog initial t).events = [] ∨
     (runMain oracle catalog initial t).events = [RunEvent.manifestWrite] ∨
     (runMain oracle catalog initial t).events =
       [RunEvent.errorLogWrite true, RunEvent.manifestWrite] ∨
     (runMain oracle catalog initial t).events = [RunEvent.errorLogWrite false]) ∧
    ((runMain oracle catalog initial t).events = [RunEvent.errorLogWrite false] →
      (runMain oracle catalog initial t).manifest = none) := by
  rw [runMain_eq]
  exact runTail_events_shape _ _ _ _ _ _

/-- Witness for C1's amended theorem: when the error-log write fails on a
run with a failed track fetch, no manifest is produced. -/
theorem C1_error_log_before_manifest_witness :
    (runMain oracleBgmRejectsLogFails [entry1] ⟨["m1.png"], []⟩ 0).manifest = none :=
  (C1_error_log_before_manifest oracleBgmRejectsLogFails [entry1]
    ⟨["m1.png"], []⟩ 0).2 (by decide)

/-- C2, counterexample: `item1`'s mark is already present in the index and
only its track is missing, yet the download stage still issues the mark
fetch (both `downloadMark` and `downloadBgm` are invoked for every item of
`toDownloadList`). -/
theorem C2_counterexample :
    isMarkDownloaded ⟨["m1.png"], []⟩ item1 = true ∧
    isBgmDownloaded ⟨["m1.png"], []⟩ item1 = false ∧
    FetchEvent.markFetch (getMarkFilename item1) ∈
      (downloadStage dlAllOk [item1] ⟨⟨["m1.png"], []⟩, [], []⟩).events :=
  ⟨by decide, by decide, by decide⟩

/-- C2 (amended): the skip decision is per item, not per asset. An item with
both assets present is not in the to-download list and has no fetch issued
for it; every item of the to-download list (missing at least one asset) has
BOTH a mark fetch and a track fetch issued, re-fetching an already-present
asset whenever the other one is missing. -/
theorem C2_per_item_fetches (oracle : DownloadOracle)
    (items : List OutputDataItem) (st : DownloadState) :
    (downloadStage oracle items st).events = st.events ++
      (toDownloadList st.index items).flatMap (fun i =>
        [FetchEvent.markFetch (getMarkFilename i),
         FetchEvent.trackFetch (getBgmFilename i)]) ∧
    ∀ i ∈ items, isMarkDownloaded st.index i → isBgmDownloaded st.index i →
      i ∉ toDownloadList st.index items := by
  refine ⟨downloadStage_events oracle items st, ?_⟩
  intro i hi hm hb hmem
  rw [toDownloadList, List.mem_filter] at hmem
  rcases hmem with ⟨_, hpred⟩
  simp [hm, hb] at hpred

/-- Witness for C2's amended theorem at a fully-present item. -/
theorem C2_per_item_fetches_witness :
    (downloadStage dlAllOk [item1]
      ⟨⟨["m1.png"], ["song1.mp3"]⟩, [], []⟩).events = [] ++
      (toDownloadList ⟨["m1.png"], ["song1.mp3"]⟩ [item1]).flatMap (fun i =>
        [FetchEvent.markFetch (getMarkFilename i),
         FetchEvent.trackFetch (getBgmFilename i)]) ∧
    item1 ∉ toDownloadList ⟨["m1.png"], ["song1.mp3"]⟩ [item1] := by
  have h := C2_per_item_fetches dlAllOk [item1]
    ⟨⟨["m1.png"], ["song1.mp3"]⟩, [], []⟩
  exact ⟨h.1, h.2 item1 (by decide) (by decide) (by decide)⟩

/-- C3: if every item's mark and track filenames are in the asset index —
as after a download stage in which every fetch succeeded — then the
to-download list is empty and a run of the download stage issues no fetch
at all. -/
theorem C3_second_run_skips_all (oracle : DownloadOracle)
    (items : List OutputDataItem) (idx : AssetIndex)
    (h : ∀ i ∈ items, isMarkDownloaded idx i ∧ isBgmDownloaded idx i) :
    toDownloadList idx items = [] ∧
    (downloadStage oracle items ⟨idx, [], []⟩).events = [] := by
  have hlist : toDownloadList idx items = [] := by
    rw [toDownloadList, List.filter_eq_nil_iff]
    intro i hi
    rcases h i hi with ⟨hm, hb⟩
    simp [hm, hb]
  refine ⟨hlist, ?_⟩
  rw [downloadStage]
  show ((toDownloadList idx items).foldl (downloadItem oracle) _).events = []
  rw [hlist]
  rfl

/-- Witness for C3 at an index containing `item1`'s two filenames. -/
theorem C3_second_run_skips_all_witness :
    (∀ i ∈ [item1], isMarkDownloaded ⟨["m1.png"], ["song1.mp3"]⟩ i ∧
      isBgmDownloaded ⟨["m1.png"], ["song1.mp3"]⟩ i) ∧
    (toDownloadList ⟨["m1.png"], ["song1.mp3"]⟩ [item1] = [] ∧
     (downloadStage dlAllOk [item1]
       ⟨⟨["m1.png"], ["song1.mp3"]⟩, [], []⟩).events = []) :=
  ⟨by decide, C3_second_run_skips_all dlAllOk [item1]
    ⟨["m1.png"], ["song1.mp3"]⟩ (by decide)⟩

/-- C5: after the duration stage, every item's `duration` is a defined,
non-negative number (for probes whose reported durations are non-negative,
which is what a duration is): the stage result is the per-item update
applied to every item; on a successful probe the duration equals the
reported value, and it is 0 when the probe fails or reports no duration. -/
theorem C5_duration_always_defined (probe : OutputDataItem → ProbeResult)
    (items : List OutputDataItem)
    (hpos : ∀ i d, probe i = ProbeResult.ok (some d) → 0 ≤ d) :
    (enrichStage probe items).1 = items.map (enrichDuration probe) ∧
    ∀ i ∈ items,
      0 ≤ (enrichDuration probe i).duration ∧
      (∀ d, probe i = ProbeResult.ok (some d) →
        (enrichDuration probe i).duration = d) ∧
      (∀ msg, probe i = ProbeResult.err msg →
        (enrichDuration probe i).duration = 0) ∧
      (probe i = ProbeResult.ok none →
        (enrichDuration probe i).duration = 0) := by
  refine ⟨enrichStage_fst probe items, ?_⟩
  intro i hi
  cases hp : probe i with
  | err m =>
    refine ⟨?_, ?_, ?_, ?_⟩ <;> simp [enrichDuration, getBgmDuration, hp]
  | ok od =>
    cases od with
    | none =>
      refine ⟨?_, ?_, ?_, ?_⟩ <;> simp [enrichDuration, getBgmDuration, hp]
    | some d =>
      have hd := hpos i d hp
      by_cases hz : d = 0
      · subst hz
        refine ⟨?_, ?_, ?_, ?_⟩ <;> simp [enrichDuration, getBgmDuration, hp]
      · refine ⟨?_, ?_, ?_, ?_⟩ <;>
          simp [enrichDuration, getBgmDuration, hp, hz]
        exact hd

/-- Witness for C5 at a probe reporting 60 seconds for every track. -/
theorem C5_duration_always_defined_witness :
    (enrichStage (fun _ => ProbeResult.ok (some 60)) [item1]).1 =
      [item1].map (enrichDuration (fun _ => ProbeResult.ok (some 60))) ∧
    0 ≤ (enrichDuration (fun _ => ProbeResult.ok (some 60)) item1).duration := by
  have hpos : ∀ (i : OutputDataItem) (d : Rat),
      (fun _ => ProbeResult.ok (some 60)) i = ProbeResult.ok (some d) →
      0 ≤ d := by
    intro i d h
    injection h with h1
    injection h1 with h2
    rw [← h2]
    norm_num
  have h := C5_duration_always_defined (fun _ => ProbeResult.ok (some 60))
    [item1] hpos
  exact ⟨h.1, (h.2 item1 (by simp)).1⟩

/-- C6: for an item whose mark fetch rejects while its track fetch
fulfills, the track filename is added to the asset index (so the track is
present for the duration stage), the mark set is unchanged, and exactly one
error record — of kind `mark` — is appended; none of kind `bgm`. -/
theorem C6_mark_fails_track_succeeds (oracle : DownloadOracle)
    (st : DownloadState) (item : OutputDataItem) (reason : String)
    (hm : oracle.markResult item = some reason)
    (hb : oracle.bgmResult item = none) :
    (downloadItem oracle st item).index.downloadedBgms =
      st.index.downloadedBgms ++ [getBgmFilename item] ∧
    getBgmFilename item ∈ (downloadItem oracle st item).index.downloadedBgms ∧
    (downloadItem oracle st item).index.downloadedMarks =
      st.index.downloadedMarks ∧
    (downloadItem oracle st item).errorLogs = st.errorLogs ++
      [⟨ErrorType.mark, markFailMessage item reason⟩] := by
  refine ⟨?_, ?_, ?_, ?_⟩ <;> simp [downloadItem, hm, hb]

/-- Witness for C6 at `item1` under the mark-rejecting fetch oracle. -/
theorem C6_mark_fails_track_succeeds_witness :
    dlMarkFails.markResult item1 = some "e403" ∧
    dlMarkFails.bgmResult item1 = none ∧
    (downloadItem dlMarkFails ⟨⟨[], []⟩, [], []⟩ item1).index.downloadedBgms =
      [] ++ [getBgmFilename item1] ∧
    (downloadItem dlMarkFails ⟨⟨[], []⟩, [], []⟩ item1).errorLogs =
      [] ++ [⟨ErrorType.mark, markFailMessage item1 "e403"⟩] := by
  have h := C6_mark_fails_track_succeeds dlMarkFails ⟨⟨[], []⟩, [], []⟩
    item1 "e403" rfl rfl
  exact ⟨rfl, rfl, h.1, h.2.2.2⟩

/-- C7: if some projected item's mark file is absent after the download
stage (its download failed and it was not pre-existing), the mark-encoding
stage's read error is fatal: the run performs no final write (no error log,
no manifest), and the final error-record list is exactly the one produced
by the download and duration stages — the read error is not recorded. -/
theorem C7_unreadable_mark_is_fatal (oracle : RunOracle)
    (catalog : List MapleBgmItem) (initial : AssetIndex) (t : Nat)
    (h : ∃ i ∈ projectCatalog catalog,
      (runDownload oracle catalog initial).index.downloadedMarks.contains
        (getMarkFilename i) = false) :
    (runMain oracle catalog initial t).events = [] ∧
    (runMain oracle catalog initial t).manifest = none ∧
    (runMain oracle catalog initial t).errorLogs =
      (runDownload oracle catalog initial).errorLogs ++
        (enrichStage oracle.probe (projectCatalog catalog)).2 := by
  obtain ⟨i, hi, hfalse⟩ := h
  have henc : encodeStage
      (fun f => (runDownload oracle catalog initial).index.downloadedMarks.contains f)
      oracle.fileBytes oracle.deflate
      (enrichStage oracle.probe (projectCatalog catalog)).1 =
      Except.error "ENOENT: no such file or directory" := by
    rw [encodeStage, if_neg]
    intro hall
    have hmem : enrichDuration oracle.probe i ∈
        (enrichStage oracle.probe (projectCatalog catalog)).1 := by
      rw [enrichStage_fst]
      exact List.mem_map_of_mem _ hi
    have hpt := List.all_eq_true.mp hall _ hmem
    rw [getMarkFilename, enrichDuration_data] at hpt
    rw [getMarkFilename] at hfalse
    rw [hfalse] at hpt
    exact Bool.false_ne_true hpt
  rw [runMain_eq, henc]
  exact ⟨rfl, rfl, rfl⟩

/-- Witness for C7: one entry, mark fetch rejects, empty initial index. -/
theorem C7_unreadable_mark_is_fatal_witness :
    (∃ i ∈ projectCatalog [entry1],
      (runDownload oracleMarkRejects [entry1] ⟨[], []⟩).index.downloadedMarks.contains
        (getMarkFilename i) = false) ∧
    (runMain oracleMarkRejects [entry1] ⟨[], []⟩ 0).events = [] ∧
    (runMain oracleMarkRejects [entry1] ⟨[], []⟩ 0).manifest = none :=
  ⟨by decide,
   (C7_unreadable_mark_is_fatal oracleMarkRejects [entry1] ⟨[], []⟩ 0
     (by decide)).1,
   (C7_unreadable_mark_is_fatal oracleMarkRejects [entry1] ⟨[], []⟩ 0
     (by decide)).2.1⟩

/-- C8: exactly one work item per catalog entry with a non-empty source
reference; excluded entries leave no trace in the error records (every
error record of a run comes from the download or duration stage); and any
written manifest's `bgms` has exactly one element per kept entry. -/
theorem C8_one_item_per_sourced_entry (oracle : RunOracle)
    (catalog : List MapleBgmItem) (initial : AssetIndex) (t : Nat) :
    (projectCatalog catalog).length =
      (catalog.filter (fun i => i.youtube ≠ "")).length ∧
    (runMain oracle catalog initial t).errorLogs =
      (runDownload oracle catalog initial).errorLogs ++
        (enrichStage oracle.probe (projectCatalog catalog)).2 ∧
    ∀ m, (runMain oracle catalog initial t).manifest = some m →
      m.bgms.length = (catalog.filter (fun i => i.youtube ≠ "")).length := by
  refine ⟨by simp [projectCatalog], ?_, ?_⟩
  · rw [runMain_eq]
    exact runTail_errorLogs _ _ _ _ _ _
  · intro m hm
    rw [runMain_eq] at hm
    have hb := runTail_manifest_bgms _ _ _ _ _ _ m hm
    rw [hb, enrichStage_fst]
    simp [projectCatalog]

/-- Witness for C8: a 3-entry catalog of which one entry lacks a source
reference; the all-success run produces 2 work items, no error records,
and a manifest whose `bgms` has length 2. -/
theorem C8_one_item_per_sourced_entry_witness :
    (projectCatalog [entry1, entry2, entryNoSource]).length = 2 ∧
    (runMain oracleAllOk [entry1, entry2, entryNoSource] ⟨[], []⟩ 0).errorLogs = [] ∧
    (runMain oracleAllOk [entry1, entry2, entryNoSource] ⟨[], []⟩ 0).manifest.map
      (fun m => m.bgms.length) = some 2 := by
  have h := C8_one_item_per_sourced_entry oracleAllOk
    [entry1, entry2, entryNoSource] ⟨[], []⟩ 0
  refine ⟨by decide, by decide, ?_⟩
  cases hm : (runMain oracleAllOk [entry1, entry2, entryNoSource]
      ⟨[], []⟩ 0).manifest with
  | none => exact absurd hm (by decide)
  | some m =>
    have hl := h.2.2 m hm
    have h2 : (([entry1, entry2, entryNoSource] : List MapleBgmItem).filter
        (fun i => i.youtube ≠ "")).length = 2 := by decide
    simp only [Option.map_some']
    rw [hl, h2]

/-- C9: the manifest's `bgms` sequence is order-preserving: its underlying
catalog entries are exactly the fetched catalog restricted to entries with
a non-empty source reference, in their original relative order — the later
stages neither reorder, insert, nor duplicate items. -/
theorem C9_manifest_preserves_catalog_order (oracle : RunOracle)
    (catalog : List MapleBgmItem) (initial : AssetIndex) (t : Nat) :
    (projectCatalog catalog).map (fun i => i.data) =
      catalog.filter (fun i => i.youtube ≠ "") ∧
    ∀ m, (runMain oracle catalog initial t).manifest = some m →
      m.bgms.map (fun i => i.data) =
        catalog.filter (fun i => i.youtube ≠ "") := by
  have hproj : (projectCatalog catalog).map (fun i => i.data) =
      catalog.filter (fun i => i.youtube ≠ "") := by
    rw [projectCatalog, List.map_map]
    have hcomp : ((fun i => i.data) ∘ toOutputDataItem) =
        (id : MapleBgmItem → MapleBgmItem) := by
      funext x
      rfl
    rw [hcomp, List.map_id]
  refine ⟨hproj, ?_⟩
  intro m hm
  rw [runMain_eq] at hm
  have hb := runTail_manifest_bgms _ _ _ _ _ _ m hm
  rw [hb, enrichStage_fst, List.map_map]
  have hcomp2 : ((fun i => i.data) ∘ enrichDuration oracle.probe) =
      (fun (i : OutputDataItem) => i.data) := by
    funext x
    exact enrichDuration_data oracle.probe x
  rw [hcomp2, hproj]

/-- Witness for C9: the all-success run over the 3-entry catalog yields a
manifest whose `bgms` project back to `[entry1, entry2]` in order. -/
theorem C9_manifest_preserves_catalog_order_witness :
    (runMain oracleAllOk [entry1, entry2, entryNoSource] ⟨[], []⟩ 0).manifest.map
      (fun m => m.bgms.map (fun i => i.data)) = some [entry1, entry2] := by
  have h := (C9_manifest_preserves_catalog_order oracleAllOk
    [entry1, entry2, entryNoSource] ⟨[], []⟩ 0).2
  cases hm : (runMain oracleAllOk [entry1, entry2, entryNoSource]
      ⟨[], []⟩ 0).manifest with
  | none => exact absurd hm (by decide)
  | some m =>
    have hl := h m hm
    have h2 : ([entry1, entry2, entryNoSource] : List MapleBgmItem).filter
        (fun i => i.youtube ≠ "") = [entry1, entry2] := by decide
    simp only [Option.map_some']
    rw [hl, h2]

/-- C10: for every list and every positive chunk size, the chunks of
`chunkArray` concatenate back to the original list, every chunk is
non-empty, and every chunk except possibly the last has length exactly the
chunk size. -/
theorem C10_chunkArray_correct {α : Type} (xs : List α) (n : Nat)
    (h : 0 < n) :
    (chunkArray xs n).flatten = xs ∧
    (∀ c ∈ chunkArray xs n, c ≠ []) ∧
    (∀ c ∈ (chunkArray xs n).dropLast, c.length = n) :=
  ⟨chunkArray_flatten xs n h,
   fun c hc => chunkArray_mem_ne_nil xs n c hc,
   fun c hc => chunkArray_dropLast_length xs n h c hc⟩

/-- Witness for C10 at `xs = [1,2,3,4,5]`, `n = 2`. -/
theorem C10_chunkArray_correct_witness :
    0 < 2 ∧
    ((chunkArray [1, 2, 3, 4, 5] 2).flatten = [1, 2, 3, 4, 5] ∧
     (∀ c ∈ chunkArray [1, 2, 3, 4, 5] 2, c ≠ []) ∧
     (∀ c ∈ (chunkArray [1, 2, 3, 4, 5] 2).dropLast, c.length = 2)) :=
  ⟨by decide, C10_chunkArray_correct [1, 2, 3, 4, 5] 2 (by decide)⟩

/-- C4: for a changed-file set with 250 audio (`.mp3`) files and 10
non-audio (`.json`/`.png`) files, the publish pipeline forms exactly one
non-audio batch followed by three audio batches of sizes 100, 100 and 50 —
committed and pushed in that list order — numbered sequentially from 1. -/
theorem C4_publish_batch_shape (files : List String)
    (hj : (files.filter (fun f => strEndsWith f ".json")).length +
          (files.filter (fun f => strEndsWith f ".png")).length = 10)
    (hm : (files.filter (fun f => strEndsWith f ".mp3")).length = 250) :
    (publishBatches files).map Prod.fst = [1, 2, 3, 4] ∧
    (publishBatches files).map (fun b => b.2.length) = [10, 100, 100, 50] ∧
    (publishBatches files).head?.map Prod.snd =
      some ((files.filter (fun f => strEndsWith f ".json")) ++
            (files.filter (fun f => strEndsWith f ".png"))) ∧
    ((publishBatches files).tail.map Prod.snd).flatten =
      files.filter (fun f => strEndsWith f ".mp3") := by
  have hne1 : files.filter (fun f => strEndsWith f ".mp3") ≠ [] := by
    intro h0
    rw [h0] at hm
    simp at hm
  have hlen150 :
      ((files.filter (fun f => strEndsWith f ".mp3")).drop 100).length = 150 := by
    simp [List.length_drop, hm]
  have hne2 : (files.filter (fun f => strEndsWith f ".mp3")).drop 100 ≠ [] := by
    intro h0
    rw [h0] at hlen150
    simp at hlen150
  have hlen50 :
      (((files.filter (fun f => strEndsWith f ".mp3")).drop 100).drop 100).length = 50 := by
    simp [List.length_drop, hm]
  have hne3 :
      ((files.filter (fun f => strEndsWith f ".mp3")).drop 100).drop 100 ≠ [] := by
    intro h0
    rw [h0] at hlen50
    simp at hlen50
  have hnil :
      (((files.filter (fun f => strEndsWith f ".mp3")).drop 100).drop 100).drop 100 = [] :=
    List.drop_eq_nil_of_le (by omega)
  have hchunks : chunkArray (files.filter (fun f => strEndsWith f ".mp3")) 100 =
      [(files.filter (fun f => strEndsWith f ".mp3")).take 100,
       ((files.filter (fun f => strEndsWith f ".mp3")).drop 100).take 100,
       (((files.filter (fun f => strEndsWith f ".mp3")).drop 100).drop 100).take 100] := by
    rw [chunkArray_cons _ 100 hne1 (by omega),
        chunkArray_cons _ 100 hne2 (by omega),
        chunkArray_cons _ 100 hne3 (by omega),
        hnil, chunkArray_nil]
  have hcond1 : ¬((files.filter (fun f => strEndsWith f ".json")).length = 0 ∧
      (files.filter (fun f => strEndsWith f ".png")).length = 0 ∧
      (files.filter (fun f => strEndsWith f ".mp3")).length = 0) := by omega
  have hcond2 : 0 < (files.filter (fun f => strEndsWith f ".json")).length ∨
      0 < (files.filter (fun f => strEndsWith f ".png")).length := by omega
  have hcond3 : 0 < (files.filter (fun f => strEndsWith f ".mp3")).length := by omega
  have hpb : publishBatches files =
      [(1, files.filter (fun f => strEndsWith f ".json") ++
           files.filter (fun f => strEndsWith f ".png")),
       (2, (files.filter (fun f => strEndsWith f ".mp3")).take 100),
       (3, ((files.filter (fun f => strEndsWith f ".mp3")).drop 100).take 100),
       (4, (((files.filter (fun f => strEndsWith f ".mp3")).drop 100).drop 100).take 100)] := by
    simp only [publishBatches]
    rw [if_neg hcond1]
    simp only [if_pos hcond2, if_pos hcond3]
    rw [hchunks]
    simp only [List.foldl_cons, List.foldl_nil]
    rfl
  refine ⟨?_, ?_, ?_, ?_⟩
  · rw [hpb]
    rfl
  · rw [hpb]
    have l1 : (files.filter (fun f => strEndsWith f ".json") ++
        files.filter (fun f => strEndsWith f ".png")).length = 10 := by
      rw [List.length_append]
      omega
    have l2 : ((files.filter (fun f => strEndsWith f ".mp3")).take 100).length = 100 := by
      rw [List.length_take]
      omega
    have l3 : (((files.filter (fun f => strEndsWith f ".mp3")).drop 100).take 100).length = 100 := by
      rw [List.length_take]
      omega
    have l4 : ((((files.filter (fun f => strEndsWith f ".mp3")).drop 100).drop 100).take 100).length = 50 := by
      rw [List.length_take]
      omega
    simp only [List.map_cons, List.map_nil, l1, l2, l3, l4]
  · rw [hpb]
    rfl
  · rw [hpb]
    simp only [List.tail_cons, List.map_cons, List.map_nil,
      List.flatten_cons, List.flatten_nil, List.append_nil]
    have e3 : (((files.filter (fun f => strEndsWith f ".mp3")).drop 100).drop 100).take 100 =
        ((files.filter (fun f => strEndsWith f ".mp3")).drop 100).drop 100 :=
      List.take_of_length_le (by omega)
    rw [e3, List.take_append_drop, List.take_append_drop]

/-- Witness for C4 at a concrete 260-file changed set. -/
theorem C4_publish_batch_shape_witness :
    ((filesC4.filter (fun f => strEndsWith f ".json")).length +
     (filesC4.filter (fun f => strEndsWith f ".png")).length = 10) ∧
    (filesC4.filter (fun f => strEndsWith f ".mp3")).length = 250 ∧
    (publishBatches filesC4).map Prod.fst = [1, 2, 3, 4] ∧
    (publishBatches filesC4).map (fun b => b.2.length) = [10, 100, 100, 50] := by
  have h1 : (filesC4.filter (fun f => strEndsWith f ".json")).length +
      (filesC4.filter (fun f => strEndsWith f ".png")).length = 10 := by decide
  have h2 : (filesC4.filter (fun f => strEndsWith f ".mp3")).length = 250 := by
    decide
  have h := C4_publish_batch_shape filesC4 h1 h2
  exact ⟨h1, h2, h.1, h.2.1⟩

end MapleResources
